import Mathlib

/-!
Verification development for the discharge-summary workflow orchestrator
(`CENTRALLLM.py`).  The Python source is shallowly embedded: the in-memory
database tables become lists inside a `DB` structure, the LangGraph state
machine becomes an explicit fuel-indexed interpreter, and the two external
LLM calls become oracle parameters (functions producing the raw response
text).  Timestamps are modelled by a logical clock that increments on every
row insertion, which realises the `server_default=func.now()` columns of a
single-writer run.
-/

/-- The character U+007B (opening curly brace), used by the transcript and
decision regular expressions. -/
def lbrace : Char := Char.ofNat 123

/-- The character U+007D (closing curly brace). -/
def rbrace : Char := Char.ofNat 125

/-- Whitespace characters recognised by Python's `str.strip()` (the common
ASCII ones; the source never feeds it the exotic unicode spaces). -/
def isPyWs (c : Char) : Bool :=
  c == ' ' || c == '\n' || c == '\t' || c == '\r' ||
  c == Char.ofNat 11 || c == Char.ofNat 12

/-- Embedding of Python's `str.strip()`: drop whitespace from both ends. -/
def pyStrip (s : String) : String :=
  String.mk (((s.data.dropWhile isPyWs).reverse.dropWhile isPyWs).reverse)

/-- Index of the first occurrence of `c` in `cs`, if any. -/
def firstIdxOf (c : Char) : List Char → Option Nat
  | [] => none
  | x :: rest => if x == c then some 0 else (firstIdxOf c rest).map (· + 1)

/-- Index of the last occurrence of `c` in `cs`, if any. -/
def lastIdxOf (c : Char) (cs : List Char) : Option Nat :=
  (firstIdxOf c cs.reverse).map (fun k => cs.length - 1 - k)

/-- Embedding of `re.search(r"\x7b.*\x7d", s, re.DOTALL)` followed by
`.group()`, as used at lines 509 and 750 of `CENTRALLLM.py`.  The regex is
greedy: the match starts at the first opening brace and extends to the last
closing brace of the whole text (provided that brace comes later), because
`.` matches newlines under DOTALL and `.*` backtracks only as far as needed
to find a final closing brace. -/
def extractJsonSpan (s : String) : Option String :=
  match firstIdxOf lbrace s.data, lastIdxOf rbrace s.data with
  | some i, some j =>
      if i < j then some (String.mk ((s.data.drop i).take (j - i + 1))) else none
  | _, _ => none

/-- Values produced by `json.loads` on the payloads the orchestrator
handles.  The embedded parser covers objects, arrays, strings with the
basic escapes, integers, booleans and null — the grammar subset the
workflow's JSON traffic uses (no floats or `\u` escapes appear in it). -/
inductive JVal where
  | null : JVal
  | bool : Bool → JVal
  | num : Int → JVal
  | str : String → JVal
  | arr : List JVal → JVal
  | obj : List (String × JVal) → JVal

/-- Python `dict.get(k)`: the value stored under key `k` (with duplicate
keys in the JSON text, `json.loads` keeps the last occurrence). -/
def JVal.get? : JVal → String → Option JVal
  | .obj kvs, k => ((kvs.filter (fun p => p.1 == k)).getLast?).map (·.2)
  | _, _ => none

/-- Python truthiness of a `json.loads` value (used by the `or` chains in
`step_summarize`). -/
def jfalsy : JVal → Bool
  | .null => true
  | .bool b => !b
  | .num n => n == 0
  | .str s => s == ""
  | .arr l => l.isEmpty
  | .obj l => l.isEmpty

mutual

/-- Python `repr()` of a `json.loads` value (only reached through `str()`
of lists/dicts in `_normalize_str_list`; never exercised by the claims). -/
def jreprAux : JVal → String
  | .null => "None"
  | .bool b => if b then "True" else "False"
  | .num n => toString n
  | .str s => "'" ++ s ++ "'"
  | .arr l => "[" ++ jreprList l ++ "]"
  | .obj l => "\x7b" ++ jreprObj l ++ "\x7d"

def jreprList : List JVal → String
  | [] => ""
  | [v] => jreprAux v
  | v :: rest => jreprAux v ++ ", " ++ jreprList rest

def jreprObj : List (String × JVal) → String
  | [] => ""
  | [(k, v)] => "'" ++ k ++ "': " ++ jreprAux v
  | (k, v) :: rest => "'" ++ k ++ "': " ++ jreprAux v ++ ", " ++ jreprObj rest

end

/-- Python `str()` of a `json.loads` value. -/
def pyStr : JVal → String
  | .str s => s
  | .null => "None"
  | .bool b => if b then "True" else "False"
  | .num n => toString n
  | .arr l => jreprAux (.arr l)
  | .obj l => jreprAux (.obj l)

/-- JSON whitespace. -/
def isJsonWs (c : Char) : Bool :=
  c == ' ' || c == '\n' || c == '\t' || c == '\r'

/-- Parse the body of a JSON string after the opening quote; returns the
decoded characters and the remainder after the closing quote. -/
def parseStringBody : Nat → List Char → Option (List Char × List Char)
  | 0, _ => none
  | _, [] => none
  | fuel + 1, c :: rest =>
    if c == '"' then some ([], rest)
    else if c == '\\' then
      match rest with
      | [] => none
      | e :: rest' =>
        let dec? : Option Char :=
          if e == '"' then some '"'
          else if e == '\\' then some '\\'
          else if e == '/' then some '/'
          else if e == 'n' then some '\n'
          else if e == 't' then some '\t'
          else if e == 'r' then some '\r'
          else if e == 'b' then some (Char.ofNat 8)
          else if e == 'f' then some (Char.ofNat 12)
          else none
        match dec? with
        | none => none
        | some d =>
          (parseStringBody fuel rest').map (fun p => (d :: p.1, p.2))
    else (parseStringBody fuel rest).map (fun p => (c :: p.1, p.2))

/-- Convert a run of decimal digits to a natural number. -/
def digitsToNat (cs : List Char) : Nat :=
  cs.foldl (fun acc c => acc * 10 + (c.toNat - 48)) 0

/-- Parse a JSON integer (optional minus sign, one or more digits; a
following `.`, `e` or `E` would denote a float, outside the embedded
subset, and is rejected). -/
def parseNumber (cs : List Char) : Option (Int × List Char) :=
  let (neg, cs') := match cs with
    | '-' :: rest => (true, rest)
    | _ => (false, cs)
  let digits := cs'.takeWhile (·.isDigit)
  let rest := cs'.dropWhile (·.isDigit)
  if digits.isEmpty then none
  else match rest with
    | '.' :: _ => none
    | 'e' :: _ => none
    | 'E' :: _ => none
    | _ =>
      let n : Int := Int.ofNat (digitsToNat digits)
      some (if neg then -n else n, rest)

mutual

/-- Parse one JSON value (fuel-indexed recursion). -/
def parseValue : Nat → List Char → Option (JVal × List Char)
  | 0, _ => none
  | fuel + 1, cs =>
    match cs.dropWhile isJsonWs with
    | [] => none
    | c :: rest =>
      if c == '"' then
        (parseStringBody (fuel + 1) rest).map (fun p => (.str (String.mk p.1), p.2))
      else if c == lbrace then
        match (rest.dropWhile isJsonWs) with
        | d :: rest' =>
          if d == rbrace then some (.obj [], rest')
          else (parseObjMembers fuel (rest.dropWhile isJsonWs)).map
            (fun p => (.obj p.1, p.2))
        | [] => none
      else if c == '[' then
        match (rest.dropWhile isJsonWs) with
        | d :: rest' =>
          if d == ']' then some (.arr [], rest')
          else (parseArrItems fuel (rest.dropWhile isJsonWs)).map
            (fun p => (.arr p.1, p.2))
        | [] => none
      else if c == 't' then
        match rest with
        | 'r' :: 'u' :: 'e' :: rest' => some (.bool true, rest')
        | _ => none
      else if c == 'f' then
        match rest with
        | 'a' :: 'l' :: 's' :: 'e' :: rest' => some (.bool false, rest')
        | _ => none
      else if c == 'n' then
        match rest with
        | 'u' :: 'l' :: 'l' :: rest' => some (.null, rest')
        | _ => none
      else
        (parseNumber (c :: rest)).map (fun p => (.num p.1, p.2))

/-- Parse the members of a JSON object (cursor on the first key's quote). -/
def parseObjMembers : Nat → List Char → Option (List (String × JVal) × List Char)
  | 0, _ => none
  | fuel + 1, cs =>
    match cs with
    | '"' :: rest =>
      match parseStringBody (fuel + 1) rest with
      | none => none
      | some (key, afterKey) =>
        match afterKey.dropWhile isJsonWs with
        | ':' :: afterColon =>
          match parseValue fuel afterColon with
          | none => none
          | some (v, afterVal) =>
            match afterVal.dropWhile isJsonWs with
            | ',' :: afterComma =>
              (parseObjMembers fuel (afterComma.dropWhile isJsonWs)).map
                (fun p => ((String.mk key, v) :: p.1, p.2))
            | d :: afterClose =>
              if d == rbrace then some ([(String.mk key, v)], afterClose)
              else none
            | [] => none
        | _ => none
    | _ => none

/-- Parse the items of a JSON array (cursor on the first item). -/
def parseArrItems : Nat → List Char → Option (List JVal × List Char)
  | 0, _ => none
  | fuel + 1, cs =>
    match parseValue fuel cs with
    | none => none
    | some (v, afterVal) =>
      match afterVal.dropWhile isJsonWs with
      | ',' :: afterComma =>
        (parseArrItems fuel afterComma).map (fun p => (v :: p.1, p.2))
      | ']' :: afterClose => some ([v], afterClose)
      | _ => none

end

/-- Embedding of `json.loads`: parse one value and require that only
whitespace remains. -/
def jsonParse (s : String) : Option JVal :=
  match parseValue (s.length * 2 + 8) s.data with
  | some (v, rest) => if (rest.dropWhile isJsonWs).isEmpty then some v else none
  | none => none

/-!  ## Data model: the database tables of `CENTRALLLM.py` -/

/-- Row of the `consultations` table (`ConsultationDB`). -/
structure Consultation where
  consultation_id : String
  patient_id : String
  doctor_id : String
  specialty : String
  raw_transcript : Option String
  cleaned_transcript : Option String
deriving Repr, DecidableEq

/-- Row of the `discharge_summaries` table (`DischargeSummaryDB`). -/
structure DischargeSummary where
  consultation_id : String
  history : Option (List String)
  diagnosis : Option (List String)
  exam_findings : Option String
  followup_instructions : Option String
  final_status : Option String
deriving Repr, DecidableEq

/-- Row of the `medications` table (`MedicationDB`). -/
structure MedicationRow where
  consultation_id : String
  name : String
  dose : String
  frequency : String
deriving Repr, DecidableEq

/-- Row of the `workflow_status` table (`WorkflowStatusDB`): the
append-only status log.  `timestamp` is the logical clock value at
insertion. -/
structure StatusEntry where
  consultation_id : String
  status : String
  timestamp : Nat
deriving Repr, DecidableEq

/-- Row of the `workflow_logs` table (`WorkflowLogDB`): trace messages. -/
structure LogEntry where
  consultation_id : String
  message : String
  log_type : String
  timestamp : Nat
deriving Repr, DecidableEq

/-- Row of the `human_interventions` table (`HumanInterventionDB`). -/
structure InterventionRecord where
  id : Nat
  consultation_id : String
  intervention_type : String
  reason : String
  missing_fields : List String
  status : String
  polling_active : Bool
  created_at : Nat
  resolved_at : Option Nat
deriving Repr, DecidableEq

/-- The database.  `clock` is the logical time source backing the
`TIMESTAMP ... server_default=func.now()` columns: it increments on every
insertion, so timestamps issued by one single-writer run are strictly
increasing.  `nextInterventionId` backs the autoincrement primary key. -/
structure DB where
  consultations : List Consultation
  discharge_summaries : List DischargeSummary
  medications : List MedicationRow
  workflow_status : List StatusEntry
  workflow_logs : List LogEntry
  human_interventions : List InterventionRecord
  clock : Nat
  nextInterventionId : Nat
deriving Repr, DecidableEq

/-- The empty database. -/
def DB.empty : DB :=
  { consultations := [], discharge_summaries := [], medications := [],
    workflow_status := [], workflow_logs := [], human_interventions := [],
    clock := 0, nextInterventionId := 1 }

/-!  ## Database helper functions (lines 116–174 of the source) -/

/-- Embedding of `update_status`: insert one new row into the status log (the function
only ever adds a `WorkflowStatusDB` row and commits; nothing is modified
or deleted). -/
def update_status (db : DB) (consultation_id state : String) : DB :=
  { db with
    workflow_status := db.workflow_status ++
      [{ consultation_id := consultation_id, status := state, timestamp := db.clock }],
    clock := db.clock + 1 }

/-- Embedding of `log_workflow_message`: insert one new row into the workflow log. -/
def log_workflow_message (db : DB) (consultation_id message log_type : String) : DB :=
  { db with
    workflow_logs := db.workflow_logs ++
      [{ consultation_id := consultation_id, message := message,
         log_type := log_type, timestamp := db.clock }],
    clock := db.clock + 1 }

/-- Embedding of `create_human_intervention`: unconditionally insert a fresh
`PENDING` intervention row with `polling_active = True`.  The source makes
no check for an already-pending intervention for the same case. -/
def create_human_intervention (db : DB) (consultation_id intervention_type reason : String)
    (missing_fields : List String) : DB :=
  { db with
    human_interventions := db.human_interventions ++
      [{ id := db.nextInterventionId, consultation_id := consultation_id,
         intervention_type := intervention_type, reason := reason,
         missing_fields := missing_fields, status := "PENDING",
         polling_active := true, created_at := db.clock, resolved_at := none }],
    clock := db.clock + 1,
    nextInterventionId := db.nextInterventionId + 1 }

/-- The per-row effect of the resolve loop (lines 153–156): flip the row
to `RESOLVED`, clear `polling_active`, stamp `resolved_at`. -/
def resolveRow (t : Nat) (i : InterventionRecord) : InterventionRecord :=
  { i with status := "RESOLVED", polling_active := false, resolved_at := some t }

/-- Embedding of `resolve_human_intervention`: every `PENDING` row of the case is
flipped to `RESOLVED` with `polling_active = False` and a resolution
timestamp. -/
def resolve_human_intervention (db : DB) (consultation_id : String) : DB :=
  { db with
    human_interventions := db.human_interventions.map (fun i =>
      if i.consultation_id == consultation_id && i.status == "PENDING" then
        resolveRow db.clock i
      else i),
    clock := db.clock + 1 }

/-- Embedding of `get_pending_interventions`: note that the source's filter is
`HumanInterventionDB.status == "RESOLVED"` (line 164) — despite the
function's name it returns the resolved records, not the pending ones. -/
def get_pending_interventions (db : DB) (consultation_id : String) : List InterventionRecord :=
  db.human_interventions.filter (fun i =>
    i.consultation_id == consultation_id && i.status == "RESOLVED")

/-- Embedding of `get_consultation`: `.filter(...).first()`. -/
def get_consultation (db : DB) (consultation_id : String) : Option Consultation :=
  db.consultations.find? (fun c => c.consultation_id == consultation_id)

/-- Embedding of `get_discharge_summary`: `.filter(...).first()`. -/
def get_discharge_summary (db : DB) (consultation_id : String) : Option DischargeSummary :=
  db.discharge_summaries.find? (fun d => d.consultation_id == consultation_id)

/-- Embedding of `get_medications`: `.filter(...).all()`. -/
def get_medications (db : DB) (consultation_id : String) : List MedicationRow :=
  db.medications.filter (fun m => m.consultation_id == consultation_id)

/-- The number of `PENDING` intervention rows of a case (the quantity the
single-pending-intervention invariant speaks about). -/
def pendingCount (db : DB) (consultation_id : String) : Nat :=
  (db.human_interventions.filter (fun i =>
    i.consultation_id == consultation_id && i.status == "PENDING")).length

/-- One accumulation step of the latest-status query: keep the entry of
the case with the greater timestamp. -/
def latestStep (consultation_id : String) (acc : Option StatusEntry) (e : StatusEntry) :
    Option StatusEntry :=
  if e.consultation_id == consultation_id then
    match acc with
    | none => some e
    | some a => if a.timestamp < e.timestamp then some e else some a
  else acc

/-- The `order_by(WorkflowStatusDB.timestamp.desc()).first()` query: the
status entry of the case with the greatest timestamp. -/
def latestStatusByTs (log : List StatusEntry) (consultation_id : String) : Option StatusEntry :=
  log.foldl (latestStep consultation_id) none

/-!  ## Polling manager (lines 219–426) -/

/-- Embedding of `PollingManager.start_polling`: if the case id is already a key of
`active_polls` — whatever boolean it maps to — the call returns at once;
otherwise the id is registered as `True` and a poll loop task is spawned.
The second component reports whether a loop was launched. -/
def start_polling (polls : List (String × Bool)) (consultation_id : String) :
    List (String × Bool) × Bool :=
  if (polls.map Prod.fst).contains consultation_id then (polls, false)
  else (polls ++ [(consultation_id, true)], true)

/-- Embedding of `PollingManager.stop_polling`: a key already present is remapped to
`False`; the key is never removed from the registry.  Absent keys are left
alone. -/
def stop_polling (polls : List (String × Bool)) (consultation_id : String) :
    List (String × Bool) :=
  if (polls.map Prod.fst).contains consultation_id then
    polls.map (fun p => if p.1 == consultation_id then (p.1, false) else p)
  else polls

/-- The value a case id maps to in the polling registry. -/
def pollValue (polls : List (String × Bool)) (consultation_id : String) : Option Bool :=
  (polls.find? (fun p => p.1 == consultation_id)).map Prod.snd

/-- The `consultation_id in polling_manager.active_polls` membership test
that `run_orchestration`, `get_consultation_data` and `get_statistics` use
to report polling as active. -/
def pollingActiveField (polls : List (String × Bool)) (consultation_id : String) : Bool :=
  (polls.map Prod.fst).contains consultation_id

/-- Whole-system mutable state: the database plus the polling manager's
in-memory registry. -/
structure World where
  db : DB
  active_polls : List (String × Bool)
deriving Repr, DecidableEq

/-!  ## Workflow state and step functions (lines 200–205, 429–655) -/

/-- Embedding of `OrchestratorState` (the LangGraph state TypedDict).  The source types
`completed_actions` as `Optional[List[str]]`; every entry point supplies a
concrete list and `llm_orchestrator` coerces a `None` to `[]`, so the
embedding carries the list directly.  `next_action` and `reasoning` hold
whatever value `decision.get(...)` produced, hence `JVal`. -/
structure OrchestratorState where
  consultation_id : String
  messages : List String
  next_action : Option JVal
  reasoning : Option JVal
  completed_actions : List String

/-- Embedding of `_normalize_str_list` (lines 429–445). -/
def normalizeStrList : JVal → List String
  | .null => []
  | .str s => let s' := pyStrip s; if s' == "" then [] else [s']
  | .arr vs => vs.foldr (fun v out =>
      match v with
      | .null => out
      | v =>
        let s := pyStrip (pyStr v)
        if s == "" then out else s :: out) []
  | v => let s := pyStrip (pyStr v); if s == "" then [] else [s]

/-- Update the `cleaned_transcript` column of the case's consultation
row. -/
def setCleanedTranscript (db : DB) (consultation_id : String) (v : String) : DB :=
  { db with consultations := db.consultations.map (fun c =>
      if c.consultation_id == consultation_id then
        { c with cleaned_transcript := some v } else c) }

/-- Embedding of `step_cleanup` (lines 447–467): strip the raw transcript into
`cleaned_transcript` (when the consultation row exists), append the
`CLEANED` status, push one trace message, log it, and mark `cleanup`
completed. -/
def step_cleanup (w : World) (st : OrchestratorState) : World × OrchestratorState :=
  let c_id := st.consultation_id
  let db1 := match get_consultation w.db c_id with
    | some c => setCleanedTranscript w.db c_id (pyStrip (c.raw_transcript.getD ""))
    | none => w.db
  let db2 := update_status db1 c_id "CLEANED"
  let msg := "[CLEANUP] ✅ Transcript cleaned"
  let st1 := { st with messages := st.messages ++ [msg] }
  let db3 := log_workflow_message db2 c_id msg "STEP"
  let completed := st1.completed_actions
  let st2 := if completed.contains "cleanup" then st1
             else { st1 with completed_actions := completed ++ ["cleanup"] }
  ({ w with db := db3 }, st2)

/-- Replace or insert the discharge-summary row produced by
`step_summarize`'s success path. -/
def upsertDischargeSummary (db : DB) (row : DischargeSummary) : DB :=
  if (db.discharge_summaries.map (·.consultation_id)).contains row.consultation_id then
    { db with discharge_summaries := db.discharge_summaries.map (fun d =>
        if d.consultation_id == row.consultation_id then row else d) }
  else
    { db with discharge_summaries := db.discharge_summaries ++ [row] }

/-- One medication entry of the summary JSON: `(m.get(k) or "Not
specified").strip()`.  A falsy value (absent key, null, empty string,
zero) becomes `"Not specified"`; a truthy non-string has no `.strip`
method and raises `AttributeError`. -/
def medField (m : JVal) (k : String) : Except String String :=
  let v := (m.get? k).getD .null
  if jfalsy v then .ok "Not specified"
  else match v with
    | .str s => .ok (pyStrip s)
    | _ => .error "AttributeError: value has no attribute strip"

/-- Build the medication rows from the summary's `medications` value
(lines 533–545): a non-list value is silently ignored, list items that are
not dicts are skipped, dict items contribute one row each. -/
def medsOfSummary (c_id : String) (meds_raw : JVal) : Except String (List MedicationRow) :=
  match meds_raw with
  | .arr items =>
    items.foldr (fun v acc =>
      match v with
      | .obj kvs =>
        match acc with
        | .error e => .error e
        | .ok rows =>
          match medField (.obj kvs) "name", medField (.obj kvs) "dose",
                medField (.obj kvs) "frequency" with
          | .ok n, .ok d, .ok f =>
            .ok ({ consultation_id := c_id, name := n, dose := d, frequency := f } :: rows)
          | .error e, _, _ => .error e
          | _, .error e, _ => .error e
          | _, _, .error e => .error e
      | _ => acc) (.ok [])
  | _ => .ok []

/-- Embedding of `step_summarize` (lines 469–559).  A missing consultation row makes
the `consultation.cleaned_transcript` attribute access raise; an absent or
whitespace-only cleaned transcript makes the step print and `return state`
without touching the database; otherwise the summarisation LLM is invoked
(`summOracle`), its reply is cut down by the same greedy
`re.search(r"\x7b.*\x7d", ..., re.DOTALL)` and fed to `json.loads`
(failures raise out of the node), and the decoded summary is written into
the discharge-summary and medication tables followed by the
`SUMMARY_GENERATED` status, a trace message and the completion mark. -/
def step_summarize (summOracle : String → String) (w : World) (st : OrchestratorState) :
    Except String (World × OrchestratorState) :=
  let c_id := st.consultation_id
  match get_consultation w.db c_id with
  | none => .error "AttributeError: NoneType has no attribute cleaned_transcript"
  | some consultation =>
    let skip := match consultation.cleaned_transcript with
      | none => true
      | some s => s == "" || pyStrip s == ""
    if skip then
      .ok (w, st)
    else
      let llm_output := summOracle (consultation.cleaned_transcript.getD "")
      match extractJsonSpan llm_output with
      | none => .error "ValueError: LLM did not return JSON."
      | some span =>
        match jsonParse span with
        | none => .error "json.JSONDecodeError"
        | some summary =>
          let history0 := normalizeStrList ((summary.get? "history").getD .null)
          let diagnosis0 := normalizeStrList ((summary.get? "diagnosis").getD .null)
          let history := if history0.isEmpty then
              ["Not clearly specified in the transcript."] else history0
          let diagnosis := if diagnosis0.isEmpty then
              ["Not clearly specified in the transcript."] else diagnosis0
          let exam := pyStr ((summary.get? "exam_findings").getD
              (.str "Not clearly documented."))
          let fu1 := (summary.get? "follow_up_instructions").getD .null
          let fu2 := (summary.get? "followup_instructions").getD .null
          let followup := pyStr (if !jfalsy fu1 then fu1
            else if !jfalsy fu2 then fu2
            else .str "No specific follow-up instructions documented.")
          let row : DischargeSummary :=
            { consultation_id := c_id, history := some history,
              diagnosis := some diagnosis, exam_findings := some exam,
              followup_instructions := some followup,
              final_status := some "SUMMARY_GENERATED" }
          match medsOfSummary c_id ((summary.get? "medications").getD (.arr [])) with
          | .error e => .error e
          | .ok newMeds =>
            let db1 := upsertDischargeSummary w.db row
            let db2 := { db1 with medications :=
              db1.medications.filter (fun m => !(m.consultation_id == c_id)) ++ newMeds }
            let db3 := update_status db2 c_id "SUMMARY_GENERATED"
            let msg := "[SUMMARIZE] ✅ Medical information extracted"
            let st1 := { st with messages := st.messages ++ [msg] }
            let db4 := log_workflow_message db3 c_id msg "STEP"
            let completed := st1.completed_actions
            let st2 := if completed.contains "summarize" then st1
                       else { st1 with completed_actions := completed ++ ["summarize"] }
            .ok ({ w with db := db4 }, st2)

/-- Embedding of `step_validate` (lines 561–595): compute the five presence checks,
append either the `VALIDATED` or the `VALIDATION_FAILED` status, push one
message, log it, and mark `validate` completed. -/
def step_validate (w : World) (st : OrchestratorState) : World × OrchestratorState :=
  let c_id := st.consultation_id
  let discharge := get_discharge_summary w.db c_id
  let medications := get_medications w.db c_id
  let has_history := match discharge with
    | some d => match d.history with | some h => !h.isEmpty | none => false
    | none => false
  let has_diagnosis := match discharge with
    | some d => match d.diagnosis with | some h => !h.isEmpty | none => false
    | none => false
  let has_exam := match discharge with
    | some d => match d.exam_findings with
      | some e => e != "" && pyStrip e != ""
      | none => false
    | none => false
  let has_medications := !medications.isEmpty
  let has_followup := match discharge with
    | some d => match d.followup_instructions with
      | some f => f != "" && pyStrip f != ""
      | none => false
    | none => false
  let results : List (String × Bool) :=
    [("has_history", has_history), ("has_diagnosis", has_diagnosis),
     ("has_exam_findings", has_exam), ("has_medications", has_medications),
     ("has_followup", has_followup)]
  let all_valid := results.all (·.2)
  let db1 :=
    if all_valid then update_status w.db c_id "VALIDATED"
    else update_status w.db c_id "VALIDATION_FAILED"
  let msg :=
    if all_valid then "[VALIDATE] ✅ All required fields are present"
    else "[VALIDATE] ⚠️ Missing fields: " ++
      String.intercalate ", " ((results.filter (fun r => !r.2)).map (·.1))
  let st1 := { st with messages := st.messages ++ [msg] }
  let db2 := log_workflow_message db1 c_id msg "STEP"
  let completed := st1.completed_actions
  let st2 := if completed.contains "validate" then st1
             else { st1 with completed_actions := completed ++ ["validate"] }
  ({ w with db := db2 }, st2)

/-- Embedding of `step_notify` (lines 597–610). -/
def step_notify (w : World) (st : OrchestratorState) : World × OrchestratorState :=
  let c_id := st.consultation_id
  let db1 := update_status w.db c_id "NOTIFIED_DOCTOR"
  let msg := "[NOTIFY] ✅ Doctor notified for " ++ c_id
  let st1 := { st with messages := st.messages ++ [msg] }
  let db2 := log_workflow_message db1 c_id msg "STEP"
  let completed := st1.completed_actions
  let st2 := if completed.contains "notify" then st1
             else { st1 with completed_actions := completed ++ ["notify"] }
  ({ w with db := db2 }, st2)

/-- Embedding of `step_error_handling` (lines 612–619): appends the `ERROR_HANDLED`
status and one message; note it does not mark anything completed. -/
def step_error_handling (w : World) (st : OrchestratorState) : World × OrchestratorState :=
  let c_id := st.consultation_id
  let db1 := update_status w.db c_id "ERROR_HANDLED"
  let msg := "[ERROR] ⚠️ Issues logged and escalated"
  let st1 := { st with messages := st.messages ++ [msg] }
  let db2 := log_workflow_message db1 c_id msg "ERROR"
  ({ w with db := db2 }, st1)

/-- Embedding of `wait_for_human_node` (lines 621–646): push one message, log it,
unconditionally create a fresh `PENDING` intervention citing
`raw_transcript`, and register the case with the polling manager (the
spawned `start_polling` task is modelled as taking effect within the
cooperative single-threaded step).  The node appends no status entry. -/
def wait_for_human_node (w : World) (st : OrchestratorState) : World × OrchestratorState :=
  let c_id := st.consultation_id
  let msg := "[WAITING] 🔄 Waiting for transcript - polling every 30s"
  let st1 := { st with messages := st.messages ++ [msg] }
  let db1 := log_workflow_message w.db c_id msg "INTERVENTION"
  let db2 := create_human_intervention db1 c_id "MISSING_TRANSCRIPT"
    "Raw transcript is missing or too short" ["raw_transcript"]
  let polls1 := (start_polling w.active_polls c_id).1
  ({ db := db2, active_polls := polls1 }, st1)

/-- Embedding of `finish_pool_node` (lines 647–655): resolve all pending interventions
of the case and mark the action completed.  The completion label written
by the source is the literal `"call_resolve_human _intervention"` — with a
stray space before `_intervention` (lines 653–654) — which is not the
`"call_resolve_human_intervention"` label the orchestrator and the routing
table use. -/
def finish_pool_node (w : World) (st : OrchestratorState) : World × OrchestratorState :=
  let c_id := st.consultation_id
  let db1 := resolve_human_intervention w.db c_id
  let completed := st.completed_actions
  let st1 := if completed.contains "call_resolve_human _intervention" then st
             else { st with completed_actions :=
               completed ++ ["call_resolve_human _intervention"] }
  ({ w with db := db1 }, st1)

/-!  ## The central orchestrator and routing (lines 659–801) -/

/-- The three labels the repeat guard exempts (line 759). -/
def exemptLabels : List String := ["complete", "error", "wait_for_transcript"]

/-- Python `value in completed` for a `json.loads` value against a list of
strings: only a string value can match. -/
def actionMem (a : JVal) (labels : List String) : Bool :=
  match a with
  | .str s => labels.contains s
  | _ => false

/-- The fields read off a decoded decision object:
`decision.get("action", "complete")` and `decision.get("reasoning", "No
reasoning provided")`. -/
def decodePair (decision : JVal) : JVal × JVal :=
  ((decision.get? "action").getD (.str "complete"),
   (decision.get? "reasoning").getD (.str "No reasoning provided"))

/-- The repeat guard at lines 758–762: an action already in
`completed_actions` that is not one of the exempt labels is replaced by
`"complete"`, and (because the source overwrites `action` before building
the f-string) the recorded reason always reads `Action 'complete' was
already done`. -/
def guardStep (completed : List String) (p : JVal × JVal) : JVal × JVal :=
  if actionMem p.1 completed && !actionMem p.1 exemptLabels then
    (.str "complete", .str "Action 'complete' was already done")
  else p

/-- The decoded decision before the repeat guard: the first greedy JSON
span of the oracle's reply is parsed, then the action and reasoning
fields are read.  `none` means the `try` block raised (no span, or
`json.loads` failed). -/
def rawDecision (response : String) : Option (JVal × JVal) :=
  ((extractJsonSpan response).bind jsonParse).map decodePair

/-- The action component of `rawDecision`. -/
def rawActionOf (response : String) : Option JVal :=
  (rawDecision response).map Prod.fst

/-- The `try` block of `llm_orchestrator` (lines 749–772): cut the first
greedy JSON span out of the reply (`ValueError` without one), decode it
(`json.JSONDecodeError` on bad JSON), read the action/reasoning fields
with their defaults and apply the repeat guard.  `Except.error` carries
the exception text reaching the `except` handler. -/
def orchestratorTryBlock (response : String) (completed : List String) :
    Except String (JVal × JVal) :=
  match (extractJsonSpan response).map jsonParse with
  | none => .error "LLM did not return valid JSON"
  | some none => .error "json.JSONDecodeError"
  | some (some decision) => .ok (guardStep completed (decodePair decision))

/-- Embedding of `llm_orchestrator` (lines 659–779).  The database reads of the node
only feed the prompt text, which the decide oracle — a function of the
whole world and state — subsumes; the node's state effects are: on
success, set `next_action`/`reasoning`, push the `[ORCHESTRATOR]` message
and log it; on an exception inside the `try`, set `next_action` to
`"error"` and `reasoning` to the failure text, with no message or log. -/
def llm_orchestrator (decideOracle : World → OrchestratorState → String)
    (w : World) (st : OrchestratorState) : World × OrchestratorState :=
  let c_id := st.consultation_id
  let response := decideOracle w st
  match orchestratorTryBlock response st.completed_actions with
  | .ok (action, reasoning) =>
    let st1 := { st with next_action := some action, reasoning := some reasoning }
    let msg := "[ORCHESTRATOR] 🎯 Next: " ++ pyStr action ++ " | " ++ pyStr reasoning
    let st2 := { st1 with messages := st1.messages ++ [msg] }
    let db1 := log_workflow_message w.db c_id msg "DECISION"
    ({ w with db := db1 }, st2)
  | .error e =>
    (w, { st with next_action := some (.str "error"),
                  reasoning := some (.str ("Error in orchestration: " ++ e)) })

/-- The `routing_map` dictionary with its `.get(action,
"error_handling")` default (lines 788–799). -/
def routing_map (action : String) : String :=
  if action = "wait_for_transcript" then "wait_for_human"
  else if action = "call_resolve_human_intervention" then "call_resolve_human_intervention"
  else if action = "cleanup" then "cleanup"
  else if action = "summarize" then "summarize"
  else if action = "validate" then "validate"
  else if action = "notify" then "notify"
  else if action = "error" then "error_handling"
  else if action = "complete" then "end"
  else "error_handling"

/-- Embedding of `route_from_orchestrator` (lines 784–801): a non-string (or missing)
`next_action` is not a key of the routing dict and falls to the
`error_handling` default. -/
def route_from_orchestrator (st : OrchestratorState) : String :=
  match st.next_action with
  | some (.str a) => routing_map a
  | _ => "error_handling"

/-!  ## The LangGraph engine (lines 805–855) -/

/-- The nodes of the compiled graph. -/
inductive Node where
  | orchestrator | wait_for_human | cleanup | summarize
  | validate | notify | error_handling | resolveIntervention
deriving Repr, DecidableEq

/-- Routing-target strings to graph nodes ("end" is handled separately as
the `END` vertex). -/
def nodeOfTarget (s : String) : Option Node :=
  if s = "wait_for_human" then some .wait_for_human
  else if s = "call_resolve_human_intervention" then some .resolveIntervention
  else if s = "cleanup" then some .cleanup
  else if s = "summarize" then some .summarize
  else if s = "validate" then some .validate
  else if s = "notify" then some .notify
  else if s = "error_handling" then some .error_handling
  else none

/-- The two external LLM calls. -/
structure Oracles where
  decide : World → OrchestratorState → String
  summarize : String → String

/-- Outcome of driving the graph. -/
inductive RunResult where
  | finished (w : World) (st : OrchestratorState)
  | crashed (w : World) (st : OrchestratorState) (err : String)
  | outOfFuel (w : World) (st : OrchestratorState)

/-- The graph interpreter.  Edges as wired at lines 824–849: the
orchestrator routes conditionally; `cleanup`, `summarize`, `validate`,
`error_handling` and `call_resolve_human_intervention` return to the
orchestrator; `notify` and `wait_for_human` go to `END`.  `fuel` bounds
the number of node executions, standing for the `recursion_limit`
configured at 50. -/
def runEngine (oracles : Oracles) : Nat → World → OrchestratorState → Node → RunResult
  | 0, w, st, _ => .outOfFuel w st
  | fuel + 1, w, st, node =>
    match node with
    | .orchestrator =>
      let ws := llm_orchestrator oracles.decide w st
      let target := route_from_orchestrator ws.2
      if target = "end" then .finished ws.1 ws.2
      else
        match nodeOfTarget target with
        | some n => runEngine oracles fuel ws.1 ws.2 n
        | none => .crashed ws.1 ws.2 "unknown routing target"
    | .cleanup =>
      let ws := step_cleanup w st
      runEngine oracles fuel ws.1 ws.2 .orchestrator
    | .summarize =>
      match step_summarize oracles.summarize w st with
      | .ok ws => runEngine oracles fuel ws.1 ws.2 .orchestrator
      | .error e => .crashed w st e
    | .validate =>
      let ws := step_validate w st
      runEngine oracles fuel ws.1 ws.2 .orchestrator
    | .notify =>
      let ws := step_notify w st
      .finished ws.1 ws.2
    | .error_handling =>
      let ws := step_error_handling w st
      runEngine oracles fuel ws.1 ws.2 .orchestrator
    | .wait_for_human =>
      let ws := wait_for_human_node w st
      .finished ws.1 ws.2
    | .resolveIntervention =>
      let ws := finish_pool_node w st
      runEngine oracles fuel ws.1 ws.2 .orchestrator

/-!  ## API endpoints used by the claims (lines 875–981) -/

/-- Embedding of `POST /consultations` (lines 875–904): reject a duplicate id,
otherwise insert the consultation row and an empty discharge-summary row
and append the `CREATED` status. -/
def create_consultation (db : DB) (consultation_id patient_id doctor_id specialty : String)
    (raw_transcript : Option String) : Except String DB :=
  match get_consultation db consultation_id with
  | some _ => .error "400: Consultation ID already exists"
  | none =>
    let db1 := { db with
      consultations := db.consultations ++
        [{ consultation_id := consultation_id, patient_id := patient_id,
           doctor_id := doctor_id, specialty := specialty,
           raw_transcript := raw_transcript, cleaned_transcript := none }],
      discharge_summaries := db.discharge_summaries ++
        [{ consultation_id := consultation_id, history := none, diagnosis := none,
           exam_findings := none, followup_instructions := none, final_status := none }],
      clock := db.clock + 1 }
    .ok (update_status db1 consultation_id "CREATED")

/-- The JSON body `POST /orchestrate/{consultation_id}` responds with
(lines 965–979). -/
structure OrchestrateResponse where
  status : String
  workflow_messages : List String
  last_action : Option JVal
  reasoning : Option JVal
  completed_actions : List String
  waiting_for_human : Bool
  polling_active : Bool
  message : String
  missing : List String

/-- The initial LangGraph state a fresh orchestration run starts from
(lines 937–943). -/
def initialState (consultation_id : String) : OrchestratorState :=
  { consultation_id := consultation_id,
    messages := ["[WORKFLOW] Starting discharge summary workflow"],
    next_action := none, reasoning := none, completed_actions := [] }

/-- Embedding of `POST /orchestrate/{consultation_id}` on a case with no prior
checkpoint (lines 906–981, start-new-workflow branch): 404 without a
consultation row, drive the graph from the orchestrator entry point under
the recursion limit of 50, then build the response.  Note
`waiting_for_human` counts the records returned by
`get_pending_interventions` — which filters on `RESOLVED` — and
`polling_active` is the registry membership test. -/
def run_orchestration (oracles : Oracles) (w : World) (consultation_id : String) :
    Except String (World × OrchestrateResponse) :=
  match get_consultation w.db consultation_id with
  | none => .error "404: Consultation ID not found"
  | some _ =>
    match runEngine oracles 50 w (initialState consultation_id) .orchestrator with
    | .crashed _ _ e => .error ("500: Orchestration error: " ++ e)
    | .outOfFuel _ _ => .error "500: Orchestration error: recursion limit reached"
    | .finished w' st =>
      let pending := get_pending_interventions w'.db consultation_id
      let current_status :=
        ((latestStatusByTs w'.db.workflow_status consultation_id).map (·.status)).getD "UNKNOWN"
      let waiting := pending.length > 0
      .ok (w',
        { status := current_status,
          workflow_messages := st.messages,
          last_action := st.next_action,
          reasoning := st.reasoning,
          completed_actions := st.completed_actions,
          waiting_for_human := waiting,
          polling_active := pollingActiveField w'.active_polls consultation_id,
          message := if waiting then
              "⏸️ Workflow paused - waiting for transcript (auto-polling every 30s)"
            else "✅ Workflow in progress or completed",
          missing := if waiting then ["raw_transcript"] else [] })

/-!  ## Concrete fixtures -/

/-- The database right after `POST /consultations` created case `C1`
without a transcript. -/
def freshDb : DB :=
  match create_consultation DB.empty "C1" "P1" "D1" "General" none with
  | .ok d => d
  | .error _ => DB.empty

/-- Fresh world: case `C1` exists, nothing is polling. -/
def freshWorld : World := { db := freshDb, active_polls := [] }

/-!  ## C1: the single-pending-intervention invariant -/

/-- C1 (counterexample): `wait_for_human_node` — the `raiseIntervention`
path — creates a fresh `PENDING` record unconditionally.  Run on the fresh
case it leaves one `PENDING` intervention; run a second time while that
record is still `PENDING` (exactly what each background poll iteration
does while the transcript stays missing) it leaves two, refuting both the
`≤ 1` invariant and the claim that the second call creates no second
record. -/
theorem c1_counterexample :
    pendingCount (wait_for_human_node freshWorld (initialState "C1")).1.db "C1" = 1
    ∧ pendingCount (wait_for_human_node
        (wait_for_human_node freshWorld (initialState "C1")).1
        (initialState "C1")).1.db "C1" = 2 :=
  ⟨rfl, rfl⟩

/-- Helper: after `resolve_human_intervention` no `PENDING` row of the
case survives. -/
theorem resolve_clears_pending_list (l : List InterventionRecord) (cid : String) (t : Nat) :
    (l.map (fun i =>
      if i.consultation_id == cid && i.status == "PENDING" then resolveRow t i
      else i)).filter
      (fun i => i.consultation_id == cid && i.status == "PENDING") = [] := by
  rw [List.filter_eq_nil_iff]
  intro i hi
  rw [List.mem_map] at hi
  obtain ⟨j, hj, rfl⟩ := hi
  by_cases h : (j.consultation_id == cid && j.status == "PENDING") = true
  · rw [if_pos h]; simp [resolveRow]
  · rw [if_neg h]; simpa using h

/-- C1 (amended): every `create_human_intervention` call inserts one more
`PENDING` record for its case — the pending count grows without bound
with repeated raises — and `resolve_human_intervention` flips all of them
at once, leaving zero pending. -/
theorem c1_amended (db : DB) (cid ty reason : String) (mf : List String) :
    pendingCount (create_human_intervention db cid ty reason mf) cid
      = pendingCount db cid + 1
    ∧ pendingCount (resolve_human_intervention db cid) cid = 0 := by
  constructor
  · simp [pendingCount, create_human_intervention, List.filter_append]
  · simp only [pendingCount, resolve_human_intervention]
    rw [resolve_clears_pending_list]
    rfl

/-!  ## C2: the repeat guard and the resolve-intervention label -/

/-- A decision reply naming the resolve action (the label as enumerated in
the prompt, the routing map and the graph node name). -/
def respC2 : String :=
  "\x7b\"action\": \"call_resolve_human_intervention\", \"reasoning\": \"again\"\x7d"

/-- C2 fails on the code and the code is the slip: `finish_pool_node`
marks its completion under the literal `"call_resolve_human
_intervention"` — with a stray space — so when the oracle later proposes
`"call_resolve_human_intervention"` again the guard at line 759 does not
find it among the completed actions, leaves the label untouched, and the
router sends the run back into the resolve node a second time.  The final
conjunct shows the guard does work for a label whose completion marker
matches (`cleanup`), confirming the claim captures the intent. -/
theorem c2_code_bug_eval :
    ((finish_pool_node freshWorld (initialState "C1")).2.completed_actions
      = ["call_resolve_human _intervention"])
    ∧ (orchestratorTryBlock respC2 ["call_resolve_human _intervention"]
      = .ok (.str "call_resolve_human_intervention", .str "again"))
    ∧ (route_from_orchestrator
        (llm_orchestrator (fun _ _ => respC2)
          (finish_pool_node freshWorld (initialState "C1")).1
          (finish_pool_node freshWorld (initialState "C1")).2).2
      = "call_resolve_human_intervention")
    ∧ (orchestratorTryBlock "\x7b\"action\": \"cleanup\"\x7d" ["cleanup"]
      = .ok (.str "complete", .str "Action 'complete' was already done")) :=
  ⟨rfl, rfl, rfl, rfl⟩

/-!  ## C3: loop-guard termination -/

/-- The `try` block, phrased through `rawDecision`: a decode failure
raises, a decoded pair goes through the repeat guard. -/
theorem orchestratorTryBlock_eq (response : String) (completed : List String) :
    orchestratorTryBlock response completed
      = match rawDecision response with
        | none =>
          match extractJsonSpan response with
          | none => .error "LLM did not return valid JSON"
          | some _ => .error "json.JSONDecodeError"
        | some p => .ok (guardStep completed p) := by
  unfold orchestratorTryBlock rawDecision
  cases extractJsonSpan response with
  | none => rfl
  | some span =>
    cases hp : jsonParse span with
    | none => simp [hp]
    | some d => simp [hp]

/-- When every reply decodes to an already-completed, non-exempt label,
the guard in the `try` block rewrites the decision to `complete`. -/
theorem tryBlock_forces_complete (response : String) (completed : List String) (a : String)
    (h : rawActionOf response = some (.str a))
    (hmem : a ∈ completed) (hnot : a ∉ exemptLabels) :
    orchestratorTryBlock response completed
      = .ok (.str "complete", .str "Action 'complete' was already done") := by
  rw [orchestratorTryBlock_eq]
  unfold rawActionOf at h
  cases hr : rawDecision response with
  | none => rw [hr] at h; simp at h
  | some p =>
    rw [hr] at h
    simp only [Option.map_some'] at h
    have hp1 : p.1 = .str a := Option.some.inj h
    show Except.ok (guardStep completed p) = _
    unfold guardStep
    rw [hp1]
    have hm : actionMem (.str a) completed = true := by
      show completed.contains a = true
      exact List.elem_eq_true_of_mem hmem
    have hn : actionMem (.str a) exemptLabels = false := by
      show exemptLabels.contains a = false
      simpa using hnot
    rw [hm, hn]
    rfl

/-- When the `try` block succeeds, `llm_orchestrator` stores its action
and reasoning into the state. -/
theorem llm_orchestrator_ok (oracle : World → OrchestratorState → String)
    (w : World) (st : OrchestratorState) (action reasoning : JVal)
    (h : orchestratorTryBlock (oracle w st) st.completed_actions = .ok (action, reasoning)) :
    (llm_orchestrator oracle w st).2.next_action = some action
    ∧ (llm_orchestrator oracle w st).2.reasoning = some reasoning := by
  unfold llm_orchestrator
  simp [h]

/-- C3: with a decision oracle whose every reply decodes to the same
action label `a`, already in the run's completed-action set and not one of
the exempt labels, the engine reaches a terminal `finished` state on its
very first decide step — the guard forces the label to `complete` and the
router goes to `END` — hence within any positive fuel amount and in
particular within the configured recursion limit of 50. -/
theorem c3_loop_guard_termination (oracles : Oracles) (a : String)
    (w : World) (st : OrchestratorState) (fuel : Nat)
    (hstub : ∀ w' st', rawActionOf (oracles.decide w' st') = some (JVal.str a))
    (hmem : a ∈ st.completed_actions)
    (hnot : a ∉ exemptLabels)
    (hfuel : 1 ≤ fuel) :
    ∃ w' st', runEngine oracles fuel w st .orchestrator = .finished w' st'
      ∧ st'.next_action = some (JVal.str "complete") := by
  obtain ⟨n, rfl⟩ : ∃ n, fuel = n + 1 := ⟨fuel - 1, by omega⟩
  have hblock := tryBlock_forces_complete (oracles.decide w st) st.completed_actions a
    (hstub w st) hmem hnot
  have hna : (llm_orchestrator oracles.decide w st).2.next_action
      = some (JVal.str "complete") :=
    (llm_orchestrator_ok oracles.decide w st _ _ hblock).1
  have hroute : route_from_orchestrator (llm_orchestrator oracles.decide w st).2 = "end" := by
    unfold route_from_orchestrator
    rw [hna]
    rfl
  refine ⟨(llm_orchestrator oracles.decide w st).1,
          (llm_orchestrator oracles.decide w st).2, ?_, hna⟩
  unfold runEngine
  simp [hroute]

/-- A decision oracle stub that always answers `cleanup`. -/
def oraclesC3 : Oracles :=
  { decide := fun _ _ => "\x7b\"action\": \"cleanup\", \"reasoning\": \"loop\"\x7d",
    summarize := fun _ => "" }

/-- A run state in which `cleanup` is already completed. -/
def stC3 : OrchestratorState :=
  { initialState "C1" with completed_actions := ["cleanup"] }

/-- C3 witness: the always-`cleanup` stub against a state that already
completed `cleanup` finishes within the recursion limit of 50. -/
theorem c3_witness :
    ∃ w' st', runEngine oraclesC3 50 freshWorld stC3 .orchestrator = .finished w' st'
      ∧ st'.next_action = some (JVal.str "complete") :=
  c3_loop_guard_termination oraclesC3 "cleanup" freshWorld stC3 50
    (fun _ _ => rfl) (by decide) (by decide) (by decide)

/-!  ## C4: decode failures and the decide step -/

/-- A reply whose JSON object parses but carries no `action` key. -/
def respC4 : String := "\x7b\"reasoning\": \"no action key\"\x7d"

/-- C4 (counterexample): the claim says a parsed object lacking the
`action` key yields the `error` label, but `decision.get("action",
"complete")` defaults the missing key to `complete`, so the decide step
stores `complete` — the run would route straight to terminal success. -/
theorem c4_counterexample :
    ((llm_orchestrator (fun _ _ => respC4) freshWorld (initialState "C1")).2.next_action
      = some (JVal.str "complete"))
    ∧ ((llm_orchestrator (fun _ _ => respC4) freshWorld (initialState "C1")).2.next_action
      ≠ some (JVal.str "error")) := by
  have h1 : (llm_orchestrator (fun _ _ => respC4) freshWorld (initialState "C1")).2.next_action
      = some (JVal.str "complete") := rfl
  refine ⟨h1, ?_⟩
  rw [h1]
  intro hcontra
  injection hcontra with h2
  injection h2 with h3
  exact absurd h3 (by decide)

/-- The decoded JSON object of a reply: greedy span extraction followed by
`json.loads`. -/
def jsonDecisionOf (response : String) : Option JVal :=
  (extractJsonSpan response).bind jsonParse

/-- A reply with no decodable decision makes the `try` block raise. -/
theorem tryBlock_error_of_none (response : String) (completed : List String)
    (h : rawDecision response = none) :
    ∃ e, orchestratorTryBlock response completed = .error e := by
  unfold rawDecision at h
  unfold orchestratorTryBlock
  cases hx : extractJsonSpan response with
  | none => exact ⟨"LLM did not return valid JSON", rfl⟩
  | some span =>
    cases hp : jsonParse span with
    | none =>
      refine ⟨"json.JSONDecodeError", ?_⟩
      simp [hp]
    | some d =>
      exfalso
      simp at h
      have hno := h span hx
      rw [hno] at hp
      exact Option.noConfusion hp

/-- When the `try` block raises, `llm_orchestrator` records the `error`
label and the failure rationale. -/
theorem llm_orchestrator_err (oracle : World → OrchestratorState → String)
    (w : World) (st : OrchestratorState) (e : String)
    (h : orchestratorTryBlock (oracle w st) st.completed_actions = .error e) :
    (llm_orchestrator oracle w st).2.next_action = some (.str "error")
    ∧ (llm_orchestrator oracle w st).2.reasoning
        = some (.str ("Error in orchestration: " ++ e)) := by
  unfold llm_orchestrator
  simp [h]

/-- C4 (amended): a reply from which no decision can be decoded — no
brace-delimited span, or a span `json.loads` rejects — makes the decide
step store the `error` label with an `Error in orchestration: ...`
rationale; but a reply whose object parses **without** an `action` key is
defaulted to `complete`, not `error`; and a decoded label outside the
routing table keeps its value in `next_action` while the router falls
back to the `error_handling` node. -/
theorem c4_amended (response : String) (w : World) (st : OrchestratorState) :
    (rawDecision response = none →
      (llm_orchestrator (fun _ _ => response) w st).2.next_action = some (JVal.str "error")
      ∧ ∃ e, (llm_orchestrator (fun _ _ => response) w st).2.reasoning
          = some (JVal.str ("Error in orchestration: " ++ e)))
    ∧ (∀ d, jsonDecisionOf response = some d → d.get? "action" = none →
      (llm_orchestrator (fun _ _ => response) w st).2.next_action
        = some (JVal.str "complete"))
    ∧ (∀ lbl : String, lbl ∉ ["wait_for_transcript", "call_resolve_human_intervention",
        "cleanup", "summarize", "validate", "notify", "error", "complete"] →
      routing_map lbl = "error_handling") := by
  refine ⟨?_, ?_, ?_⟩
  · intro h
    obtain ⟨e, he⟩ := tryBlock_error_of_none response st.completed_actions h
    have hres := llm_orchestrator_err (fun _ _ => response) w st e he
    exact ⟨hres.1, ⟨e, hres.2⟩⟩
  · intro d hd hnoact
    have hpair : decodePair d
        = (.str "complete", (d.get? "reasoning").getD (.str "No reasoning provided")) := by
      unfold decodePair
      rw [hnoact]
      rfl
    have hblock : orchestratorTryBlock response st.completed_actions
        = .ok (guardStep st.completed_actions (decodePair d)) := by
      unfold jsonDecisionOf at hd
      unfold orchestratorTryBlock
      cases hx : extractJsonSpan response with
      | none => rw [hx] at hd; simp at hd
      | some span =>
        rw [hx] at hd
        have hp : jsonParse span = some d := by simpa using hd
        simp [hp]
    have hguard : guardStep st.completed_actions (decodePair d)
        = (.str "complete", (d.get? "reasoning").getD (.str "No reasoning provided")) := by
      rw [hpair]
      have hex : actionMem (.str "complete") exemptLabels = true := rfl
      simp [guardStep, hex]
    have hres := llm_orchestrator_ok (fun _ _ => response) w st (.str "complete")
      ((d.get? "reasoning").getD (.str "No reasoning provided"))
      (by rw [hblock, hguard])
    exact hres.1
  · intro lbl hlbl
    simp only [List.mem_cons, List.not_mem_nil, or_false, not_or] at hlbl
    obtain ⟨h1, h2, h3, h4, h5, h6, h7, h8⟩ := hlbl
    simp [routing_map, h1, h2, h3, h4, h5, h6, h7, h8]

/-- C4 amended witness: a prose-only reply (no braces) yields the `error`
label. -/
theorem c4_amended_witness :
    (llm_orchestrator (fun _ _ => "the model returned prose only")
      freshWorld (initialState "C1")).2.next_action = some (JVal.str "error") :=
  ((c4_amended "the model returned prose only" freshWorld (initialState "C1")).1 rfl).1

/-!  ## C5: prose-wrapped JSON and the greedy span -/

/-- Lemma: `firstIdxOf` skips over a prefix that misses the character. -/
theorem firstIdxOf_append_of_not_mem (c : Char) (l1 l2 : List Char) (h : c ∉ l1) :
    firstIdxOf c (l1 ++ l2) = (firstIdxOf c l2).map (· + l1.length) := by
  induction l1 with
  | nil =>
    simp only [List.nil_append, List.length_nil]
    cases firstIdxOf c l2 <;> simp
  | cons x l ih =>
    have hxc : (x == c) = false := by
      simp only [beq_eq_false_iff_ne]
      intro he
      subst he
      exact h (List.mem_cons_self x l)
    simp only [List.cons_append, firstIdxOf, hxc, Bool.false_eq_true, if_false,
      List.append_eq]
    rw [ih (fun hc => h (List.mem_cons_of_mem x hc))]
    cases firstIdxOf c l2 with
    | none => rfl
    | some k =>
      simp only [Option.map_some', List.length_cons, Option.some.injEq]
      omega

/-- The greedy regex on `prose₁ ++ object ++ prose₂`: when the leading
prose has no opening brace and the trailing prose has no closing brace
(braces the other way around are immaterial), the matched span is exactly
the object. -/
theorem extractJsonSpan_wrapped (p o t : String) (mid : List Char)
    (hp : lbrace ∉ p.data) (ht : rbrace ∉ t.data)
    (ho : o.data = lbrace :: (mid ++ [rbrace])) :
    extractJsonSpan (p ++ o ++ t) = some o := by
  have holen : o.data.length = mid.length + 2 := by
    rw [ho]; simp
  have hdata : (p ++ o ++ t).data = p.data ++ (o.data ++ t.data) := by
    show (p.data ++ o.data) ++ t.data = _
    exact List.append_assoc _ _ _
  have hfirst : firstIdxOf lbrace (p.data ++ (o.data ++ t.data))
      = some p.data.length := by
    rw [firstIdxOf_append_of_not_mem lbrace p.data _ hp]
    rw [ho]
    simp [firstIdxOf]
  have hrevo : o.data.reverse = rbrace :: (mid.reverse ++ [lbrace]) := by
    rw [ho]
    simp
  have hrev : (p.data ++ (o.data ++ t.data)).reverse
      = t.data.reverse ++ (o.data.reverse ++ p.data.reverse) := by
    simp [List.reverse_append]
  have hlast : lastIdxOf rbrace (p.data ++ (o.data ++ t.data))
      = some (p.data.length + o.data.length - 1) := by
    unfold lastIdxOf
    rw [hrev]
    rw [firstIdxOf_append_of_not_mem rbrace t.data.reverse _
      (by simpa using ht)]
    rw [hrevo]
    simp only [firstIdxOf, beq_self_eq_true, if_true, Option.map_some']
    simp only [List.length_append, List.length_reverse]
    congr 1
    omega
  unfold extractJsonSpan
  rw [hdata]
  simp only [hfirst, hlast]
  rw [if_pos (by omega)]
  rw [List.drop_left]
  rw [show p.data.length + o.data.length - 1 - p.data.length + 1 = o.data.length
    from by omega]
  rw [List.take_left]

/-- The single well-formed JSON decision object of the C5 scenario. -/
def objC5 : String := "\x7b\"action\": \"cleanup\", \"reasoning\": \"r\"\x7d"

/-- The oracle reply wrapping `objC5` in prose whose trailing part has a
stray closing brace. -/
def respC5 : String := "Sure! " ++ objC5 ++ " Note: \x7d done"

/-- C5 (counterexample): `objC5` is a well-formed JSON object with
`action` and `reasoning` fields and the adapter decodes it alone just
fine; but on the full reply — prose with one more closing brace after the
object — the greedy `\x7b.*\x7d` regex runs to the *last* closing brace,
the over-long span fails `json.loads`, and the decide step yields `error`
instead of using the object's fields. -/
theorem c5_counterexample :
    respC5 = "Sure! " ++ objC5 ++ " Note: \x7d done"
    ∧ jsonParse objC5
        = some (JVal.obj [("action", .str "cleanup"), ("reasoning", .str "r")])
    ∧ rawDecision objC5 = some (.str "cleanup", .str "r")
    ∧ extractJsonSpan respC5 = some (objC5 ++ " Note: \x7d")
    ∧ (llm_orchestrator (fun _ _ => respC5) freshWorld (initialState "C1")).2.next_action
        = some (JVal.str "error") :=
  ⟨rfl, rfl, rfl, rfl, rfl⟩

/-- C5 (amended): the adapter extracts the object and uses its `action`
and `reasoning` fields whenever the leading prose contains no opening
brace and the trailing prose contains no closing brace — further opening
braces after the object are tolerated; a closing brace in the trailing
prose (the counterexample) breaks it. -/
theorem c5_amended (p o t : String) (mid : List Char) (d : JVal) (a r : String)
    (w : World) (st : OrchestratorState)
    (hp : lbrace ∉ p.data) (ht : rbrace ∉ t.data)
    (ho : o.data = lbrace :: (mid ++ [rbrace]))
    (hparse : jsonParse o = some d)
    (ha : d.get? "action" = some (.str a))
    (hr : d.get? "reasoning" = some (.str r))
    (hguard : a ∉ st.completed_actions) :
    (llm_orchestrator (fun _ _ => p ++ o ++ t) w st).2.next_action = some (JVal.str a)
    ∧ (llm_orchestrator (fun _ _ => p ++ o ++ t) w st).2.reasoning = some (JVal.str r) := by
  have hx := extractJsonSpan_wrapped p o t mid hp ht ho
  have hdp : decodePair d = (.str a, .str r) := by
    unfold decodePair
    rw [ha, hr]
    rfl
  have hblock : orchestratorTryBlock (p ++ o ++ t) st.completed_actions
      = .ok (guardStep st.completed_actions (decodePair d)) := by
    unfold orchestratorTryBlock
    rw [hx]
    simp [hparse]
  have hguard2 : guardStep st.completed_actions (decodePair d) = (.str a, .str r) := by
    rw [hdp]
    unfold guardStep
    have hm : actionMem (.str a) st.completed_actions = false := by
      show st.completed_actions.contains a = false
      simpa using hguard
    simp [hm]
  exact llm_orchestrator_ok (fun _ _ => p ++ o ++ t) w st (.str a) (.str r)
    (by rw [hblock, hguard2])

/-- The interior characters of `objC5`. -/
def midC5 : List Char := "\"action\": \"cleanup\", \"reasoning\": \"r\"".data

/-- C5 amended witness: prose before and after (the trailing prose even
containing another opening brace) still decodes to the object's action
and reasoning. -/
theorem c5_amended_witness :
    (llm_orchestrator (fun _ _ => "Result: " ++ objC5 ++ " ok \x7bmore")
      freshWorld (initialState "C1")).2.next_action = some (JVal.str "cleanup") :=
  (c5_amended "Result: " objC5 " ok \x7bmore" midC5
    (JVal.obj [("action", .str "cleanup"), ("reasoning", .str "r")]) "cleanup" "r"
    freshWorld (initialState "C1")
    (by decide) (by decide) rfl rfl rfl rfl (by decide)).1

/-!  ## C6: orchestrating a fresh case with no transcript -/

/-- Oracles for the C6 scenario: with the transcript missing the decision
rules prescribe `wait_for_transcript`. -/
def oraclesC6 : Oracles :=
  { decide := fun _ _ =>
      "\x7b\"action\": \"wait_for_transcript\", \"reasoning\": \"no transcript\"\x7d",
    summarize := fun _ => "" }

/-- C6 evaluated: the run does end at the wait-for-human soft terminal
with exactly one `PENDING` intervention citing `raw_transcript` and the
polling registry holding the case — but the response reports
`waiting_for_human = false` and the in-progress message, because
`get_pending_interventions` filters `status == "RESOLVED"` (line 164)
rather than `PENDING`, so a case whose only intervention is `PENDING`
counts zero. -/
theorem c6_code_bug_eval :
    ∃ w' resp, run_orchestration oraclesC6 freshWorld "C1" = .ok (w', resp)
      ∧ resp.waiting_for_human = false
      ∧ resp.polling_active = true
      ∧ pendingCount w'.db "C1" = 1
      ∧ w'.db.human_interventions.map (fun i => i.missing_fields) = [["raw_transcript"]]
      ∧ resp.last_action = some (JVal.str "wait_for_transcript")
      ∧ resp.message = "✅ Workflow in progress or completed" :=
  ⟨_, _, rfl, rfl, rfl, rfl, rfl, rfl, rfl⟩

/-!  ## C7: status entries per transition -/

/-- C7 (counterexample): executing the wait-for-human node appends a
trace message to the state and a log row, but no `StatusEntry` — the
status log is untouched, so this transition has no status audit row. -/
theorem c7_counterexample :
    ((wait_for_human_node freshWorld (initialState "C1")).1.db.workflow_status
      = freshWorld.db.workflow_status)
    ∧ ((wait_for_human_node freshWorld (initialState "C1")).1.db.workflow_logs.length
      = freshWorld.db.workflow_logs.length + 1)
    ∧ ((wait_for_human_node freshWorld (initialState "C1")).2.messages.length
      = (initialState "C1").messages.length + 1) :=
  ⟨rfl, rfl, rfl⟩

/-- C7 (amended): the executor nodes `cleanup`, `validate`, `notify` and
`error_handling` each append exactly one StatusEntry in their step, but
the decide node, the wait-for-human node and the resolve-intervention
node append none — they write only trace/log messages (and `summarize`
skips the status too when its precondition is missing, see the C8
theorems). -/
theorem c7_amended (w : World) (st : OrchestratorState)
    (oracle : World → OrchestratorState → String) :
    ((step_cleanup w st).1.db.workflow_status = w.db.workflow_status ++
      [{ consultation_id := st.consultation_id, status := "CLEANED",
         timestamp := w.db.clock }])
    ∧ ((step_notify w st).1.db.workflow_status = w.db.workflow_status ++
      [{ consultation_id := st.consultation_id, status := "NOTIFIED_DOCTOR",
         timestamp := w.db.clock }])
    ∧ ((step_error_handling w st).1.db.workflow_status = w.db.workflow_status ++
      [{ consultation_id := st.consultation_id, status := "ERROR_HANDLED",
         timestamp := w.db.clock }])
    ∧ (∃ s, (step_validate w st).1.db.workflow_status = w.db.workflow_status ++
      [{ consultation_id := st.consultation_id, status := s,
         timestamp := w.db.clock }])
    ∧ ((wait_for_human_node w st).1.db.workflow_status = w.db.workflow_status)
    ∧ ((finish_pool_node w st).1.db.workflow_status = w.db.workflow_status)
    ∧ ((llm_orchestrator oracle w st).1.db.workflow_status = w.db.workflow_status) := by
  refine ⟨?_, ?_, ?_, ?_, ?_, ?_, ?_⟩
  · cases h : get_consultation w.db st.consultation_id <;>
      simp [step_cleanup, h, update_status, log_workflow_message, setCleanedTranscript]
  · simp [step_notify, update_status, log_workflow_message]
  · simp [step_error_handling, update_status, log_workflow_message]
  · unfold step_validate
    dsimp only
    split
    · exact ⟨"VALIDATED", by simp [update_status, log_workflow_message]⟩
    · exact ⟨"VALIDATION_FAILED", by simp [update_status, log_workflow_message]⟩
  · simp [wait_for_human_node, log_workflow_message, create_human_intervention]
  · simp [finish_pool_node, resolve_human_intervention]
  · cases h : orchestratorTryBlock (oracle w st) st.completed_actions <;>
      simp [llm_orchestrator, h, log_workflow_message]

/-!  ## C8: summarize without its precondition -/

/-- A consultation whose cleaned transcript is whitespace only. -/
def consC8 : Consultation :=
  { consultation_id := "C8", patient_id := "P8", doctor_id := "D8",
    specialty := "General", raw_transcript := some "short",
    cleaned_transcript := some "   " }

/-- World holding just `consC8`. -/
def worldC8 : World :=
  { db := { DB.empty with consultations := [consC8] }, active_polls := [] }

/-- C8 (counterexample): `step_summarize` with an effectively-empty
cleaned transcript raises nothing — it returns `Except.ok` with database
and state both unchanged (a silent skip with a console print, no typed
error, no status entry and no completion mark). -/
theorem c8_counterexample :
    step_summarize (fun _ => "") worldC8 (initialState "C8")
      = .ok (worldC8, initialState "C8") := rfl

/-- C8 (amended): whenever the case's consultation row exists but its
cleaned transcript is absent, empty or whitespace, `step_summarize`
terminates successfully with the world and the state exactly as they
were: no typed error is raised and no derived field is written. -/
theorem c8_amended (so : String → String) (w : World) (st : OrchestratorState)
    (c : Consultation)
    (hc : get_consultation w.db st.consultation_id = some c)
    (hskip : pyStrip (c.cleaned_transcript.getD "") = "") :
    step_summarize so w st = Except.ok (w, st) := by
  have hskipb : (match c.cleaned_transcript with
      | none => true
      | some s => s == "" || pyStrip s == "") = true := by
    cases hcc : c.cleaned_transcript with
    | none => rfl
    | some s =>
      rw [hcc] at hskip
      simp only [Option.getD_some] at hskip
      simp [hskip]
  unfold step_summarize
  simp only [hc]
  rw [hskipb]
  rfl

/-- A consultation that was never cleaned at all. -/
def consC8b : Consultation :=
  { consultation_id := "C8b", patient_id := "P8", doctor_id := "D8",
    specialty := "General", raw_transcript := none, cleaned_transcript := none }

/-- World holding just `consC8b`. -/
def worldC8b : World :=
  { db := { DB.empty with consultations := [consC8b] }, active_polls := [] }

/-- C8 amended witness at the never-cleaned consultation. -/
theorem c8_amended_witness :
    step_summarize (fun _ => "irrelevant") worldC8b (initialState "C8b")
      = Except.ok (worldC8b, initialState "C8b") :=
  c8_amended (fun _ => "irrelevant") worldC8b (initialState "C8b") consC8b rfl rfl

/-!  ## C9: the status log is append-only, read by latest timestamp -/

/-- Every issued status timestamp is strictly below the clock (true of
any state the single-writer operations produce, since each insert stamps
the current clock and advances it). -/
def StatusWF (db : DB) : Prop :=
  ∀ e ∈ db.workflow_status, e.timestamp < db.clock

/-- A latest-status fold result is an element of the log, unless it was
already the accumulator. -/
theorem latestFold_mem (cid : String) (log : List StatusEntry) :
    ∀ (acc : Option StatusEntry) (a : StatusEntry),
      log.foldl (latestStep cid) acc = some a → a ∈ log ∨ acc = some a := by
  induction log with
  | nil =>
    intro acc a h
    right
    exact h
  | cons e l ih =>
    intro acc a h
    simp only [List.foldl_cons] at h
    rcases ih (latestStep cid acc e) a h with h1 | h1
    · left
      exact List.mem_cons_of_mem e h1
    · unfold latestStep at h1
      by_cases hc : (e.consultation_id == cid) = true
      · rw [if_pos hc] at h1
        cases acc with
        | none =>
          left
          have he : e = a := Option.some.inj h1
          subst he
          exact List.mem_cons_self e l
        | some b =>
          change (if b.timestamp < e.timestamp then some e else some b) = some a at h1
          by_cases ht : b.timestamp < e.timestamp
          · rw [if_pos ht] at h1
            left
            have he : e = a := Option.some.inj h1
            subst he
            exact List.mem_cons_self e l
          · rw [if_neg ht] at h1
            right
            exact h1
      · rw [if_neg hc] at h1
        right
        exact h1

/-- C9: `update_status` appends exactly one new row — the existing rows
survive verbatim as a prefix, nothing is modified or deleted — the
strict-timestamp invariant is preserved, and the
`order_by(timestamp.desc()).first()` query (the engine's and the API's
current-status read) afterwards returns precisely the appended row. -/
theorem c9_status_append_only (db : DB) (cid s : String) (hwf : StatusWF db) :
    (update_status db cid s).workflow_status = db.workflow_status ++
      [{ consultation_id := cid, status := s, timestamp := db.clock }]
    ∧ StatusWF (update_status db cid s)
    ∧ latestStatusByTs (update_status db cid s).workflow_status cid
      = some { consultation_id := cid, status := s, timestamp := db.clock } := by
  refine ⟨rfl, ?_, ?_⟩
  · intro e he
    simp only [update_status, List.mem_append, List.mem_singleton] at he
    show e.timestamp < db.clock + 1
    rcases he with he | he
    · exact Nat.lt_succ_of_lt (hwf e he)
    · subst he
      exact Nat.lt_succ_self _
  · show latestStatusByTs (db.workflow_status ++
      [{ consultation_id := cid, status := s, timestamp := db.clock }]) cid = _
    unfold latestStatusByTs
    rw [List.foldl_append]
    cases hacc : List.foldl (latestStep cid) none db.workflow_status with
    | none =>
      simp [latestStep]
    | some a =>
      have hmem : a ∈ db.workflow_status := by
        rcases latestFold_mem cid db.workflow_status none a hacc with h | h
        · exact h
        · exact Option.noConfusion h
      have hlt : a.timestamp < db.clock := hwf a hmem
      simp [latestStep, hlt]

/-- A database with one `CREATED` status row for case `C1`. -/
def dbC9 : DB := update_status DB.empty "C1" "CREATED"

/-- C9 witness: after appending `CLEANED` on top of `CREATED`, the
latest-by-timestamp read returns the `CLEANED` row. -/
theorem c9_witness :
    latestStatusByTs (update_status dbC9 "C1" "CLEANED").workflow_status "C1"
      = some { consultation_id := "C1", status := "CLEANED", timestamp := dbC9.clock } :=
  (c9_status_append_only dbC9 "C1" "CLEANED" (by
    intro e he
    simp only [dbC9, update_status, DB.empty, List.nil_append,
      List.mem_singleton] at he
    subst he
    decide)).2.2

/-!  ## C10: the polling registry never forgets a key -/

/-- Lemma: `stop_polling` leaves the registry's key set unchanged. -/
theorem stop_polling_keys (polls : List (String × Bool)) (cid : String) :
    (stop_polling polls cid).map Prod.fst = polls.map Prod.fst := by
  unfold stop_polling
  split
  · rw [List.map_map]
    apply List.map_congr_left
    intro p _
    by_cases h : (p.1 == cid) = true <;> simp [h, Function.comp]
  · rfl

/-- After `stop_polling`, the first registry entry for the case maps to
`False`. -/
theorem find_stopped (l : List (String × Bool)) (cid : String)
    (h : cid ∈ l.map Prod.fst) :
    (l.map (fun p => if p.1 == cid then (p.1, false) else p)).find?
      (fun p => p.1 == cid) = some (cid, false) := by
  induction l with
  | nil => simp at h
  | cons p l ih =>
    simp only [List.map_cons, List.mem_cons] at h
    simp only [List.map_cons]
    by_cases hp : (p.1 == cid) = true
    · rw [if_pos hp]
      simp only [List.find?]
      rw [hp]
      have hcid : p.1 = cid := by simpa using hp
      rw [hcid]
    · rw [if_neg hp]
      simp only [List.find?]
      rw [Bool.eq_false_iff.mpr hp]
      rcases h with h | h
      · exfalso
        apply hp
        simp [h]
      · exact ih h

/-- C10: once `stop_polling` ran on an actively-polling case, the key
stays in the registry mapped to `False`: the membership test every API
field uses (`polling_active`, `active_polling`) still reports the case as
polling, and a later `start_polling` sees the key and returns without
launching a loop, leaving the registry untouched. -/
theorem c10_stop_polling_permanent (polls : List (String × Bool)) (cid : String)
    (h : pollingActiveField polls cid = true) :
    pollingActiveField (stop_polling polls cid) cid = true
    ∧ pollValue (stop_polling polls cid) cid = some false
    ∧ start_polling (stop_polling polls cid) cid = (stop_polling polls cid, false) := by
  have hmem : cid ∈ polls.map Prod.fst := by
    unfold pollingActiveField at h
    simpa using h
  have hactive : pollingActiveField (stop_polling polls cid) cid = true := by
    unfold pollingActiveField
    rw [stop_polling_keys polls cid]
    exact h
  refine ⟨hactive, ?_, ?_⟩
  · unfold pollValue stop_polling
    rw [if_pos (show ((polls.map Prod.fst).contains cid) = true from h)]
    rw [find_stopped polls cid hmem]
    rfl
  · unfold start_polling
    rw [if_pos (show (((stop_polling polls cid).map Prod.fst).contains cid) = true
      from hactive)]

/-- C10 witness on the one-entry registry. -/
theorem c10_witness :
    pollingActiveField (stop_polling [("C1", true)] "C1") "C1" = true
    ∧ pollValue (stop_polling [("C1", true)] "C1") "C1" = some false
    ∧ start_polling (stop_polling [("C1", true)] "C1") "C1"
        = (stop_polling [("C1", true)] "C1", false) :=
  c10_stop_polling_permanent [("C1", true)] "C1" (by decide)
